import Mathlib

/-!
Verification of the gap-aware PPSD compute/merge pipeline of `cp_ppsd`
(`src/cp_ppsd/cp_psd.py`), as a shallow embedding in Lean 4.

Python strings are modelled by Lean `String` (a wrapper around `List Char`),
and the Python string primitives used by the source (`str.replace`,
`str.split`, `in`, `str.startswith`, `str.count`, slicing) are re-implemented
below by structural recursion on the character list, so that every definition
evaluates by kernel reduction.  Machine-level concerns (numpy arrays, file
handles) are abstracted into explicit state records; exceptions are modelled
with `Except`.
-/

set_option maxRecDepth 40000

/-- Python decimal digit character for `n % 10`-style values below ten. -/
def digitChar (n : Nat) : Char :=
  if n = 0 then '0' else if n = 1 then '1' else if n = 2 then '2'
  else if n = 3 then '3' else if n = 4 then '4' else if n = 5 then '5'
  else if n = 6 then '6' else if n = 7 then '7' else if n = 8 then '8' else '9'

/-- Fuel-driven decimal digit expansion of a natural number (most significant
digit first), mirroring Python `str(n)` for non-negative `n`. -/
def natDigitsAux : Nat → Nat → List Char
  | 0, _ => []
  | fuel + 1, n =>
    if n < 10 then [digitChar n]
    else natDigitsAux fuel (n / 10) ++ [digitChar (n % 10)]

/-- Decimal digits of `n`, most significant first. -/
def natDigits (n : Nat) : List Char := natDigitsAux (n + 1) n

/-- Python `str(n)` for a natural number. -/
def natStr (n : Nat) : String := String.mk (natDigits n)

/-- Python `f"{n:0wd}"`: decimal digits of `n` left-padded with zeros to
width `w` (all digits are kept when `n` needs more than `w` digits). -/
def padNat (w n : Nat) : String :=
  String.mk (List.replicate (w - (natDigits n).length) '0' ++ natDigits n)

/-- Lexicographic comparison of character lists by code point, the order
Python uses when `sorted` is applied to a list of path strings. -/
def lexLe : List Char → List Char → Bool
  | [], _ => true
  | _ :: _, [] => false
  | a :: as, b :: bs => if a = b then lexLe as bs else decide (a < b)

/-- Order on Lean strings corresponding to Python string comparison. -/
def strLe (s t : String) : Prop := lexLe s.data t.data = true

instance : DecidableRel strLe :=
  fun s t => instDecidableEqBool (lexLe s.data t.data) true

/-- Python `sub in s` on character lists. -/
def containsSub (s sub : List Char) : Bool :=
  match s with
  | [] => sub.isEmpty
  | _ :: t => sub.isPrefixOf s || containsSub t sub

/-- Python `sub in s` on strings. -/
def pyContains (s sub : String) : Bool := containsSub s.data sub.data

/-- Python `s.startswith(pre)`. -/
def pyStartsWith (s pre : String) : Bool := pre.data.isPrefixOf s.data

/-- Python `s.count(c)` for a single character. -/
def pyCount (s : String) (c : Char) : Nat := s.data.count c

/-- Python `s[n:]` for a non-negative index. -/
def strDropChars (s : String) (n : Nat) : String := String.mk (s.data.drop n)

/-- Fuel-driven core of Python `s.replace(old, new)`: replaces every
non-overlapping occurrence of `n` in `s` with `v`, scanning left to right. -/
def replaceAux (n v : List Char) : Nat → List Char → List Char
  | 0, s => s
  | fuel + 1, s =>
    match s with
    | [] => []
    | c :: t =>
      if n.isPrefixOf (c :: t) then v ++ replaceAux n v fuel (t.drop (n.length - 1))
      else c :: replaceAux n v fuel t

/-- Python `s.replace(old, new)` on character lists (nonempty `old`). -/
def pyReplaceL (s n v : List Char) : List Char := replaceAux n v s.length s

/-- Python `s.replace(old, new)` on strings.  The sources only ever call
`replace` with a nonempty pattern; an empty pattern is left as the identity. -/
def pyReplace (s old new : String) : String :=
  if old.data.isEmpty then s else String.mk (pyReplaceL s.data old.data new.data)

/-- Fuel-driven core of Python `s.split(sep)` for a nonempty separator. -/
def splitAux (sep : List Char) : Nat → List Char → List (List Char)
  | 0, s => [s]
  | fuel + 1, s =>
    match s with
    | [] => [[]]
    | c :: t =>
      if sep.isPrefixOf (c :: t) then [] :: splitAux sep fuel (t.drop (sep.length - 1))
      else
        match splitAux sep fuel t with
        | [] => [[c]]
        | h :: r => (c :: h) :: r

/-- Python `s.split(sep)` on character lists (nonempty `sep`). -/
def pySplitL (s sep : List Char) : List (List Char) := splitAux sep s.length s

/-- Python `s.split(sep)` on strings for a nonempty separator. -/
def pySplit (s sep : String) : List String :=
  if sep.data.isEmpty then [s] else (pySplitL s.data sep.data).map String.mk

/-- A character list without any opening brace, the shape of every substituted
placeholder value in a well-formed filename. -/
def braceFreeL (s : List Char) : Prop := ∀ c ∈ s, c ≠ '{'

/-- A string without any opening brace. -/
def braceFreeStr (s : String) : Prop := braceFreeL s.data

theorem replaceAux_nil (n v : List Char) (fuel : Nat) : replaceAux n v fuel [] = [] := by
  cases fuel <;> rfl

theorem replaceAux_congr (n v : List Char) :
    ∀ (f1 : Nat) (f2 : Nat) (s : List Char), s.length ≤ f1 → s.length ≤ f2 →
      replaceAux n v f1 s = replaceAux n v f2 s := by
  intro f1
  induction f1 with
  | zero =>
    intro f2 s h1 _
    have hs : s = [] := List.length_eq_zero.mp (Nat.le_zero.mp h1)
    subst hs
    rw [replaceAux_nil, replaceAux_nil]
  | succ f1 ih =>
    intro f2 s h1 h2
    match s with
    | [] => rw [replaceAux_nil, replaceAux_nil]
    | c :: t =>
      match f2 with
      | 0 => exact absurd h2 (by simp)
      | f2 + 1 =>
        show replaceAux n v (f1 + 1) (c :: t) = replaceAux n v (f2 + 1) (c :: t)
        simp only [replaceAux]
        have ht1 : t.length ≤ f1 := by simp at h1; omega
        have ht2 : t.length ≤ f2 := by simp at h2; omega
        have hdrop : (t.drop (n.length - 1)).length ≤ t.length := by
          simp [List.length_drop]
        cases hp : n.isPrefixOf (c :: t) with
        | true =>
          simp only [if_true]
          rw [ih f2 _ (le_trans hdrop ht1) (le_trans hdrop ht2)]
        | false =>
          simp only [Bool.false_eq_true, if_false]
          rw [ih f2 t ht1 ht2]

theorem pyReplaceL_cons (n v : List Char) (c : Char) (t : List Char) :
    pyReplaceL (c :: t) n v =
      if n.isPrefixOf (c :: t) then v ++ pyReplaceL (t.drop (n.length - 1)) n v
      else c :: pyReplaceL t n v := by
  show replaceAux n v (t.length + 1) (c :: t) = _
  simp only [replaceAux]
  cases hp : n.isPrefixOf (c :: t) with
  | true =>
    simp only [if_true]
    rw [replaceAux_congr n v t.length (t.drop (n.length - 1)).length _
      (by simp [List.length_drop]) (le_refl _)]
    rfl
  | false =>
    simp only [Bool.false_eq_true, if_false]
    rfl

theorem pyReplaceL_append_free (n v a rest : List Char)
    (ha : braceFreeL a) (hn : n.head? = some '{') :
    pyReplaceL (a ++ rest) n v = a ++ pyReplaceL rest n v := by
  induction a with
  | nil => simp
  | cons c a' ih =>
    have hc : c ≠ '{' := ha c (by simp)
    have ha' : braceFreeL a' := fun x hx => ha x (by simp [hx])
    rw [List.cons_append, pyReplaceL_cons]
    have hnp : n.isPrefixOf (c :: (a' ++ rest)) = false := by
      cases hq : n.isPrefixOf (c :: (a' ++ rest)) with
      | false => rfl
      | true =>
        exfalso
        obtain ⟨u, hu⟩ := List.isPrefixOf_iff_prefix.mp hq
        match n, hn with
        | h :: n', hn =>
          have hh : h = '{' := by simpa using hn
          have hch : c = h := by
            have := congrArg List.head? hu
            simpa using this.symm
          exact hc (hch.trans hh)
    rw [hnp]
    simp only [Bool.false_eq_true, if_false]
    rw [ih ha']
    rfl

theorem pyReplaceL_head_match (n v rest : List Char) (hn : n ≠ []) :
    pyReplaceL (n ++ rest) n v = v ++ pyReplaceL rest n v := by
  match n, hn with
  | c :: n', _ =>
    rw [List.cons_append, pyReplaceL_cons]
    have hp : List.isPrefixOf (c :: n') (c :: (n' ++ rest)) = true := by
      apply List.isPrefixOf_iff_prefix.mpr
      exact ⟨rest, by simp⟩
    rw [hp]
    simp only [if_true]
    have hlen : (c :: n').length - 1 = n'.length := by simp
    rw [hlen, List.drop_left]

theorem pyReplaceL_no_occur (n v s : List Char) (h : containsSub s n = false) :
    pyReplaceL s n v = s := by
  induction s with
  | nil => rfl
  | cons c t ih =>
    have hsplit : n.isPrefixOf (c :: t) = false ∧ containsSub t n = false := by
      have := h
      simp only [containsSub, Bool.or_eq_false_iff] at this
      exact this
    rw [pyReplaceL_cons, hsplit.1]
    simp only [Bool.false_eq_true, if_false]
    rw [ih hsplit.2]

theorem containsSub_eq_false_of_free (n s : List Char)
    (hb : '{' ∈ n) (hs : braceFreeL s) : containsSub s n = false := by
  induction s with
  | nil =>
    have : n ≠ [] := by intro h; subst h; simp at hb
    simpa [containsSub, List.isEmpty_iff]
  | cons c t ih =>
    have hc : c ≠ '{' := hs c (by simp)
    have ht : braceFreeL t := fun x hx => hs x (by simp [hx])
    simp only [containsSub, Bool.or_eq_false_iff]
    constructor
    · cases hq : n.isPrefixOf (c :: t) with
      | false => rfl
      | true =>
        exfalso
        have hpre := List.isPrefixOf_iff_prefix.mp hq
        have hmem : ('{' : Char) ∈ c :: t := hpre.subset hb
        rcases List.mem_cons.mp hmem with h | h
        · exact hc h.symm
        · exact (ht _ h) rfl
    · exact ih ht

theorem pyReplaceL_free_no_occur (n v s : List Char)
    (hb : '{' ∈ n) (hs : braceFreeL s) : pyReplaceL s n v = s :=
  pyReplaceL_no_occur n v s (containsSub_eq_false_of_free n s hb hs)

theorem stringDataEq {s t : String} (h : s.data = t.data) : s = t := by
  cases s
  cases t
  exact congrArg String.mk h

theorem lexLe_trans : ∀ a b c : List Char,
    lexLe a b = true → lexLe b c = true → lexLe a c = true := by
  intro a
  induction a with
  | nil => intro b c _ _; rfl
  | cons x xs ih =>
    intro b c hab hbc
    match b, c with
    | [], _ => simp [lexLe] at hab
    | _ :: _, [] => simp [lexLe] at hbc
    | y :: ys, z :: zs =>
      simp only [lexLe] at hab hbc ⊢
      by_cases hxy : x = y
      · subst hxy
        by_cases hyz : x = z
        · subst hyz
          simp only [if_pos rfl] at hab hbc ⊢
          exact ih ys zs hab hbc
        · simp only [if_pos rfl] at hab
          simp only [if_neg hyz] at hbc ⊢
          exact hbc
      · simp only [if_neg hxy, decide_eq_true_eq] at hab
        by_cases hyz : y = z
        · subst hyz
          simp only [if_neg hxy, decide_eq_true_eq]
          exact hab
        · simp only [if_neg hyz, decide_eq_true_eq] at hbc
          have hxz : x < z := lt_trans hab hbc
          simp only [if_neg (ne_of_lt hxz), decide_eq_true_eq]
          exact hxz

theorem lexLe_total : ∀ a b : List Char, lexLe a b = true ∨ lexLe b a = true := by
  intro a
  induction a with
  | nil => intro b; left; rfl
  | cons x xs ih =>
    intro b
    match b with
    | [] => right; rfl
    | y :: ys =>
      by_cases hxy : x = y
      · subst hxy
        rcases ih ys with h | h
        · left; simpa [lexLe] using h
        · right; simpa [lexLe] using h
      · rcases lt_trichotomy x y with h | h | h
        · left; simp [lexLe, hxy, h]
        · exact absurd h hxy
        · right
          simp only [lexLe, if_neg (fun he : y = x => hxy he.symm), decide_eq_true_eq]
          exact h

theorem lexLe_antisymm : ∀ a b : List Char,
    lexLe a b = true → lexLe b a = true → a = b := by
  intro a
  induction a with
  | nil =>
    intro b _ hba
    match b with
    | [] => rfl
    | _ :: _ => simp [lexLe] at hba
  | cons x xs ih =>
    intro b hab hba
    match b with
    | [] => simp [lexLe] at hab
    | y :: ys =>
      by_cases hxy : x = y
      · subst hxy
        simp only [lexLe, if_pos rfl] at hab hba
        rw [ih ys hab hba]
      · simp only [lexLe, if_neg hxy, decide_eq_true_eq] at hab
        simp only [lexLe, if_neg (fun he : y = x => hxy he.symm), decide_eq_true_eq] at hba
        exact absurd hba (lt_asymm hab)

instance : IsTrans String strLe :=
  ⟨fun a b c hab hbc => lexLe_trans a.data b.data c.data hab hbc⟩

instance : IsTotal String strLe :=
  ⟨fun a b => lexLe_total a.data b.data⟩

instance : IsAntisymm String strLe :=
  ⟨fun a b hab hba => stringDataEq (lexLe_antisymm a.data b.data hab hba)⟩

/-- Python `sorted(npz_files)`: the path list in lexicographic order. -/
def sortNpzFiles (files : List String) : List String :=
  List.insertionSort strLe files

theorem sortNpzFiles_perm (files : List String) :
    List.Perm (sortNpzFiles files) files :=
  List.perm_insertionSort strLe files

theorem sortNpzFiles_eq_of_perm (l1 l2 : List String) (h : List.Perm l1 l2) :
    sortNpzFiles l1 = sortNpzFiles l2 := by
  apply List.eq_of_perm_of_sorted (r := strLe)
  · exact (sortNpzFiles_perm l1).trans (h.trans (sortNpzFiles_perm l2).symm)
  · exact List.sorted_insertionSort strLe l1
  · exact List.sorted_insertionSort strLe l2

theorem digitChar_ne_brace (n : Nat) : digitChar n ≠ '{' := by
  unfold digitChar
  split_ifs <;> decide

theorem natDigitsAux_braceFree : ∀ (fuel n : Nat), braceFreeL (natDigitsAux fuel n) := by
  intro fuel
  induction fuel with
  | zero => intro n c hc; simp [natDigitsAux] at hc
  | succ f ih =>
    intro n c hc
    simp only [natDigitsAux] at hc
    by_cases h : n < 10
    · rw [if_pos h] at hc
      have : c = digitChar n := by simpa using hc
      rw [this]
      exact digitChar_ne_brace n
    · rw [if_neg h] at hc
      rcases List.mem_append.mp hc with h1 | h1
      · exact ih (n / 10) c h1
      · have : c = digitChar (n % 10) := by simpa using h1
        rw [this]
        exact digitChar_ne_brace (n % 10)

theorem natStr_braceFree (n : Nat) : braceFreeStr (natStr n) :=
  fun c hc => natDigitsAux_braceFree (n + 1) n c hc

theorem padNat_braceFree (w n : Nat) : braceFreeStr (padNat w n) := by
  intro c hc
  rcases List.mem_append.mp hc with h1 | h1
  · have : c = '0' := List.eq_of_mem_replicate h1
    rw [this]
    decide
  · exact natDigitsAux_braceFree (n + 1) n c h1

theorem braceFreeStr_append {s t : String}
    (hs : braceFreeStr s) (ht : braceFreeStr t) : braceFreeStr (s ++ t) := by
  intro c hc
  rcases List.mem_append.mp hc with h1 | h1
  · exact hs c h1
  · exact ht c h1

/-! ## Gap-merge policy (`calculate_ppsd`, lines 371-476)

`merge_fill_value` comes from the configuration either as a number or as a
string ("none"/"null" are aliases for Python `None`).  When
`skip_on_gaps` is true the fill value is forced to `None` and the channel
group's trace segments are handed to the accumulator without merging. -/

/-- Configured fill value: a number or a raw configuration string. -/
inductive FillValue where
  | num (z : Int)
  | strVal (s : String)
deriving DecidableEq

/-- Normalisation of a string-typed "None"/"null" fill value to Python
`None` (`cp_psd.py` lines 376-381, via `str.lower`). -/
def normalizeMergeFillValue (v : Option FillValue) : Option FillValue :=
  match v with
  | some (.strVal s) =>
    if s.toLower = "none" ∨ s.toLower = "null" then none else some (.strVal s)
  | other => other

/-- Resolved fill value for one compute batch (`cp_psd.py` lines 376-390):
string aliases are normalised first, then `skip_on_gaps = true` forces
no-fill. -/
def resolveFillValue (skipOnGaps : Bool) (mergeFillValue : Option FillValue) :
    Option FillValue :=
  let v := normalizeMergeFillValue mergeFillValue
  if skipOnGaps then none else v

/-- One continuous trace segment of a channel group. -/
structure TraceSeg where
  seedId : String
  npts : Nat
deriving DecidableEq

/-- Trace list fed to the accumulator for one channel group
(`cp_psd.py` lines 431-476).  With `skip_on_gaps = true` the original
segments are kept; otherwise groups of more than one segment are merged by
the external `Stream.merge`, modelled by `mergeFn`, falling back to the
original segments when it fails. -/
def tracesToProcess (skipOnGaps : Bool)
    (mergeFn : List TraceSeg → Except Unit (List TraceSeg))
    (group : List TraceSeg) : List TraceSeg :=
  if skipOnGaps then group
  else if 1 < group.length then
    match mergeFn group with
    | .ok merged => merged
    | .error _ => group
  else group

/-- C1: with `skip_on_gaps = true` the resolved fill value is no-fill
regardless of the caller-supplied fill value, the channel group's segments
are never combined (the accumulator receives exactly the original
segments), and hence the number of output traces is at least the number of
input segments. -/
theorem c1_skip_on_gaps_forces_no_fill_and_keeps_segments :
    ∀ (fv : Option FillValue)
      (mergeFn : List TraceSeg → Except Unit (List TraceSeg))
      (group : List TraceSeg),
      resolveFillValue true fv = none ∧
      tracesToProcess true mergeFn group = group ∧
      group.length ≤ (tracesToProcess true mergeFn group).length := by
  intro fv mergeFn group
  refine ⟨rfl, rfl, ?_⟩
  exact le_refl _

/-! ## Snapshot writer (`_process_single_merged_trace_to_npz`, lines 628-652)

After `ppsd.add`, the number of processed windows is
`len(ppsd.times_processed)`; the NPZ artifact is saved only when it is
positive, otherwise the writer logs and returns without writing.  A failing
`save_npz` is logged and re-raised. -/

/-- Persistence decision of the snapshot writer.  `timesProcessed` is the
accumulator's processed-window list, `saveOk` tells whether the external
`save_npz` call would succeed, and the result carries the path written
(`none` when nothing was written). -/
def persistPpsdNpz (timesProcessed : List Nat) (saveOk : Bool)
    (npzPath : String) : Except String (Option String) :=
  if timesProcessed.length = 0 then .ok none
  else if saveOk then .ok (some npzPath) else .error npzPath

/-- C2: the snapshot writer persists an artifact file if and only if the
accumulator's processed-window count is positive; with a zero count it
returns without writing (and without error) whatever the state of the
filesystem. -/
theorem c2_persist_iff_nonempty :
    ∀ (timesProcessed : List Nat) (saveOk : Bool) (npzPath : String),
      (timesProcessed.length = 0 →
        persistPpsdNpz timesProcessed saveOk npzPath = .ok none) ∧
      (0 < timesProcessed.length → saveOk = true →
        persistPpsdNpz timesProcessed saveOk npzPath = .ok (some npzPath)) ∧
      (∀ q, persistPpsdNpz timesProcessed saveOk npzPath = .ok (some q) →
        0 < timesProcessed.length) := by
  intro tp saveOk p
  refine ⟨?_, ?_, ?_⟩
  · intro h
    simp [persistPpsdNpz, h]
  · intro h hs
    have hne : ¬ tp.length = 0 := by omega
    simp [persistPpsdNpz, hne, hs]
  · intro q hq
    by_cases h : tp.length = 0
    · simp [persistPpsdNpz, h] at hq
    · omega

/-- Witness for C2 at concrete inputs: an empty accumulator is not
persisted, a three-window accumulator is. -/
theorem c2_persist_iff_nonempty_witness :
    persistPpsdNpz [] true "out.npz" = .ok none ∧
    persistPpsdNpz [7, 8, 9] true "out.npz" = .ok (some "out.npz") :=
  ⟨(c2_persist_iff_nonempty [] true "out.npz").1 rfl,
   (c2_persist_iff_nonempty [7, 8, 9] true "out.npz").2.1 (by decide) rfl⟩

/-! ## Special-handling dispatch (`_process_single_merged_trace_to_npz`,
lines 533-577)

The mode string is first normalised ("None"/"none"/"null" become Python
`None`), is stored unchanged in the accumulator construction parameters
(`ppsd_params['special_handling']`, line 546), and then selects the
metadata handed to the accumulator constructor. -/

/-- Normalisation of the string-typed `special_handling` value
(`cp_psd.py` line 535). -/
def normalizeSpecialHandling (sh : Option String) : Option String :=
  match sh with
  | some s => if s = "None" ∨ s = "none" ∨ s = "null" then none else some s
  | none => none

/-- What is passed to the accumulator constructor as `metadata`. -/
inductive MetadataKind where
  | sensitivityOnly
  | fullInventory
deriving DecidableEq

/-- Inputs of the `PPSD(trace.stats, metadata=..., **ppsd_params)` call that
depend on the special-handling mode. -/
structure PpsdConstruction where
  metadataKind : MetadataKind
  paramsSpecialHandling : Option String
  warnedUnknown : Bool
deriving DecidableEq

/-- Hard failure raised before the accumulator is constructed. -/
inductive PpsdSetupError where
  | sensitivityExtraction
deriving DecidableEq

/-- Mode dispatch of `_process_single_merged_trace_to_npz` (lines 533-577):
ringlaser mode resolves a scalar sensitivity (raising when that fails),
hydrophone and default use the full inventory, and any other string keeps
the full inventory with a warning while the raw string stays in the
construction parameters. -/
def prepareConstruction (sh0 : Option String) (sensitivityOk : Bool) :
    Except PpsdSetupError PpsdConstruction :=
  let sh := normalizeSpecialHandling sh0
  if sh = some "ringlaser" then
    if sensitivityOk then .ok ⟨.sensitivityOnly, sh, false⟩
    else .error .sensitivityExtraction
  else if sh = some "hydrophone" then .ok ⟨.fullInventory, sh, false⟩
  else if sh = none then .ok ⟨.fullInventory, none, false⟩
  else .ok ⟨.fullInventory, sh, true⟩

/-- C6 counterexample: for the unrecognized mode string "unknown_mode" the
accumulator construction parameters are not those of default mode — the raw
string is forwarded as `special_handling` where default mode passes `None` —
so accumulation does not proceed exactly as in default mode. -/
theorem c6_counterexample_params_differ_from_default :
    (prepareConstruction (some "unknown_mode") true).map
        (fun c => c.paramsSpecialHandling) ≠
      (prepareConstruction none true).map (fun c => c.paramsSpecialHandling) := by
  intro h
  exact Option.noConfusion (Except.ok.inj h)

/-- C6 amended: an unrecognized special-handling string selects the same
metadata as default mode (the full inventory) with a warning and without any
hard failure in the dispatch itself, but the unrecognized string is passed
through unchanged in the accumulator construction parameters, where default
mode passes `None`. -/
theorem c6_amended_unknown_mode_warns_and_forwards :
    ∀ (s : String) (sensitivityOk : Bool),
      s ≠ "ringlaser" → s ≠ "hydrophone" →
      s ≠ "None" → s ≠ "none" → s ≠ "null" →
      prepareConstruction (some s) sensitivityOk =
        .ok ⟨.fullInventory, some s, true⟩ := by
  intro s ok h1 h2 h3 h4 h5
  have hnorm : normalizeSpecialHandling (some s) = some s := by
    simp [normalizeSpecialHandling, h3, h4, h5]
  simp [prepareConstruction, hnorm, h1, h2]

/-- Witness for C6 amended at the concrete mode string "unknown_mode". -/
theorem c6_amended_unknown_mode_warns_and_forwards_witness :
    prepareConstruction (some "unknown_mode") true =
      .ok ⟨.fullInventory, some "unknown_mode", true⟩ :=
  c6_amended_unknown_mode_warns_and_forwards "unknown_mode" true
    (by decide) (by decide) (by decide) (by decide) (by decide)

/-! ## Snapshot merge engine (`_create_merged_ppsd_with_add_npz`, lines 912-970)

The engine sorts the group's artifact paths, loads the first as the base
accumulator (load failure propagates), folds the remaining artifacts with
`add_npz` (a failure is logged and the artifact skipped), and returns the
merged accumulator even when its final window count is zero (only
a warning is logged in that case).  What the filesystem holds at each path
is modelled by the `disk` map. -/

/-- On-disk behaviour of one artifact: its processed-window count, whether
`PPSD.load_npz` would fail on it, and whether `add_npz` would fail on it. -/
structure NpzArtifactInfo where
  nSegments : Nat
  loadFails : Bool
  addFails : Bool
deriving DecidableEq

/-- Result of one SeedGroup merge: its final window count, the number of
artifacts skipped after a fold failure, and whether the empty-result warning
fired. -/
structure MergeOutcome where
  finalCount : Nat
  skippedCount : Nat
  warnedEmpty : Bool
deriving DecidableEq

/-- Failure of a SeedGroup merge that propagates to the caller. -/
inductive MergeError where
  | noFiles
  | baseLoadFailure
deriving DecidableEq

/-- One `add_npz` step of the merge loop (lines 940-961): a failing artifact
is counted as skipped, a succeeding one adds its own windows. -/
def addNpzStep (disk : String → NpzArtifactInfo) (acc : Nat × Nat)
    (f : String) : Nat × Nat :=
  if (disk f).addFails then (acc.1, acc.2 + 1)
  else (acc.1 + (disk f).nSegments, acc.2)

/-- The SeedGroup merge of `_create_merged_ppsd_with_add_npz`: raise on an
empty group, sort by filename, load the sorted-first artifact as base
(failure propagates), fold the rest (failures skipped), warn when the final
count is zero but still return the merged accumulator. -/
def createMergedPpsd (disk : String → NpzArtifactInfo)
    (npzFiles : List String) : Except MergeError MergeOutcome :=
  if npzFiles.isEmpty then .error .noFiles
  else
    match sortNpzFiles npzFiles with
    | [] => .error .noFiles
    | baseFile :: rest =>
      if (disk baseFile).loadFails then .error .baseLoadFailure
      else
        let st := rest.foldl (addNpzStep disk) ((disk baseFile).nSegments, 0)
        .ok ⟨st.1, st.2, st.1 == 0⟩

theorem addNpzStep_foldl (disk : String → NpzArtifactInfo) :
    ∀ (rest : List String) (a b : Nat),
      rest.foldl (addNpzStep disk) (a, b) =
        (a + ((rest.filter (fun f => !(disk f).addFails)).map
                (fun f => (disk f).nSegments)).sum,
         b + (rest.filter (fun f => (disk f).addFails)).length) := by
  intro rest
  induction rest with
  | nil => intro a b; simp
  | cons f fs ih =>
    intro a b
    simp only [List.foldl_cons, addNpzStep]
    cases h : (disk f).addFails with
    | true =>
      simp only [if_true]
      rw [ih a (b + 1)]
      simp [List.filter_cons, h]
      omega
    | false =>
      simp only [Bool.false_eq_true, if_false]
      rw [ih (a + (disk f).nSegments) b]
      simp [List.filter_cons, h]
      omega

theorem createMergedPpsd_perm_congr (disk : String → NpzArtifactInfo)
    (files1 files2 : List String) (h : List.Perm files1 files2) :
    createMergedPpsd disk files1 = createMergedPpsd disk files2 := by
  have hemp : files1.isEmpty = files2.isEmpty := by
    have hlen := h.length_eq
    cases files1 with
    | nil =>
      cases files2 with
      | nil => rfl
      | cons b bs => simp at hlen
    | cons a as =>
      cases files2 with
      | nil => simp at hlen
      | cons b bs => rfl
  unfold createMergedPpsd
  rw [hemp, sortNpzFiles_eq_of_perm files1 files2 h]

/-- C3: merging a SeedGroup sorts the artifacts by filename, loads the
sorted-first artifact as base, and — whenever the base loads — produces as
final count the sum of the window counts of the artifacts that did not fail
to fold (failed ones counted as skips), all independently of the I/O order
of the artifact list prior to sorting; merging the same set of files twice
therefore selects the same base and the same final count. -/
theorem c3_merge_sum_and_order_independence (disk : String → NpzArtifactInfo)
    (files1 files2 : List String) (hperm : List.Perm files1 files2) :
    createMergedPpsd disk files1 = createMergedPpsd disk files2 ∧
    (∀ baseFile rest, sortNpzFiles files1 = baseFile :: rest →
      (disk baseFile).loadFails = false →
      createMergedPpsd disk files1 =
        .ok ⟨(disk baseFile).nSegments +
               ((rest.filter (fun f => !(disk f).addFails)).map
                 (fun f => (disk f).nSegments)).sum,
             (rest.filter (fun f => (disk f).addFails)).length,
             ((disk baseFile).nSegments +
               ((rest.filter (fun f => !(disk f).addFails)).map
                 (fun f => (disk f).nSegments)).sum) == 0⟩) := by
  constructor
  · exact createMergedPpsd_perm_congr disk files1 files2 hperm
  · intro baseFile rest hsort hload
    have hne : files1.isEmpty = false := by
      have hp := sortNpzFiles_perm files1
      rw [hsort] at hp
      have hlen := hp.length_eq
      cases files1 with
      | nil => simp at hlen
      | cons a as => rfl
    unfold createMergedPpsd
    rw [hne, hsort]
    simp only [Bool.false_eq_true, if_false]
    rw [hload]
    simp only [Bool.false_eq_true, if_false]
    rw [addNpzStep_foldl disk rest (disk baseFile).nSegments 0]
    simp

/-- Disk contents for the spec's concrete merge scenario: three artifacts of
channel BJ.DAX.00.BHZ with 10, 15 and 0 windows, the third failing to fold. -/
def mergeScenarioDisk (f : String) : NpzArtifactInfo :=
  if f = "PPSD_BJ.DAX.00.BHZ_20250101.npz" then ⟨10, false, false⟩
  else if f = "PPSD_BJ.DAX.00.BHZ_20250102.npz" then ⟨15, false, false⟩
  else ⟨0, false, true⟩

/-- Witness for C3 at the spec's concrete scenario: handed the three
artifacts out of order, the merge equals the in-order merge and yields a
final count of 25 with one skipped artifact. -/
theorem c3_merge_sum_and_order_independence_witness :
    createMergedPpsd mergeScenarioDisk
        ["PPSD_BJ.DAX.00.BHZ_20250102.npz", "PPSD_BJ.DAX.00.BHZ_20250103.npz",
         "PPSD_BJ.DAX.00.BHZ_20250101.npz"] =
      createMergedPpsd mergeScenarioDisk
        ["PPSD_BJ.DAX.00.BHZ_20250101.npz", "PPSD_BJ.DAX.00.BHZ_20250102.npz",
         "PPSD_BJ.DAX.00.BHZ_20250103.npz"] ∧
    createMergedPpsd mergeScenarioDisk
        ["PPSD_BJ.DAX.00.BHZ_20250102.npz", "PPSD_BJ.DAX.00.BHZ_20250103.npz",
         "PPSD_BJ.DAX.00.BHZ_20250101.npz"] = .ok ⟨25, 1, false⟩ := by
  constructor
  · exact (c3_merge_sum_and_order_independence mergeScenarioDisk
      ["PPSD_BJ.DAX.00.BHZ_20250102.npz", "PPSD_BJ.DAX.00.BHZ_20250103.npz",
       "PPSD_BJ.DAX.00.BHZ_20250101.npz"]
      ["PPSD_BJ.DAX.00.BHZ_20250101.npz", "PPSD_BJ.DAX.00.BHZ_20250102.npz",
       "PPSD_BJ.DAX.00.BHZ_20250103.npz"] (by decide)).1
  · have h := (c3_merge_sum_and_order_independence mergeScenarioDisk
      ["PPSD_BJ.DAX.00.BHZ_20250102.npz", "PPSD_BJ.DAX.00.BHZ_20250103.npz",
       "PPSD_BJ.DAX.00.BHZ_20250101.npz"]
      ["PPSD_BJ.DAX.00.BHZ_20250102.npz", "PPSD_BJ.DAX.00.BHZ_20250103.npz",
       "PPSD_BJ.DAX.00.BHZ_20250101.npz"] (List.Perm.refl _)).2
      "PPSD_BJ.DAX.00.BHZ_20250101.npz"
      ["PPSD_BJ.DAX.00.BHZ_20250102.npz", "PPSD_BJ.DAX.00.BHZ_20250103.npz"]
      (by decide) (by decide)
    rw [h]
    rfl

/-- C4: during a SeedGroup merge a base-load failure propagates as a fatal
error for the group; when the base loads, per-artifact fold failures are
skipped and never abort the merge (an `ok` outcome is always returned, with
one skip counted per failed artifact), and a zero final count still returns
the merged accumulator, with the empty warning fired. -/
theorem c4_merge_failure_semantics (disk : String → NpzArtifactInfo)
    (files : List String) (baseFile : String) (rest : List String)
    (hsort : sortNpzFiles files = baseFile :: rest) :
    ((disk baseFile).loadFails = true →
      createMergedPpsd disk files = .error .baseLoadFailure) ∧
    ((disk baseFile).loadFails = false →
      ∃ out : MergeOutcome, createMergedPpsd disk files = .ok out ∧
        out.skippedCount = (rest.filter (fun f => (disk f).addFails)).length ∧
        (out.finalCount = 0 → out.warnedEmpty = true)) := by
  have hne : files.isEmpty = false := by
    have hp := sortNpzFiles_perm files
    rw [hsort] at hp
    have hlen := hp.length_eq
    cases files with
    | nil => simp at hlen
    | cons a as => rfl
  constructor
  · intro hload
    unfold createMergedPpsd
    rw [hne, hsort]
    simp only [Bool.false_eq_true, if_false]
    rw [hload]
    simp only [if_true]
  · intro hload
    have h := (c3_merge_sum_and_order_independence disk files files
      (List.Perm.refl _)).2 baseFile rest hsort hload
    refine ⟨_, h, rfl, ?_⟩
    intro h0
    simpa using h0

/-- Disk contents with an unreadable sorted-first artifact. -/
def mergeBaseFailDisk (f : String) : NpzArtifactInfo :=
  if f = "a.npz" then ⟨0, true, false⟩ else ⟨5, false, false⟩

/-- Witness for C4 at a concrete group whose sorted-first artifact fails to
load: the merge fails for the whole group. -/
theorem c4_merge_failure_semantics_witness :
    createMergedPpsd mergeBaseFailDisk ["b.npz", "a.npz"] =
      .error .baseLoadFailure :=
  (c4_merge_failure_semantics mergeBaseFailDisk ["b.npz", "a.npz"] "a.npz"
    ["b.npz"] (by decide)).1 (by decide)

/-! ## Snapshot identity resolver (`_group_npz_files_by_seed_id`, lines
815-863, and `_extract_seed_id_from_filename`, lines 865-892)

The canonical SEED identity of one artifact is resolved from the embedded
`id` field, else from embedded `_network`/`_station` (with `_location`
defaulting to "" and `_channel` to "XXX"), else from filename heuristics;
any exception while reading the NPZ falls back to the filename heuristics.
The heuristics first look for a hyphenated token after a `_PPSD_` marker,
then for a dotted token after a `PPSD_` prefix, and finally return the
extension-stripped filename itself. -/

/-- Filename heuristics of `_extract_seed_id_from_filename`. -/
def extractSeedIdFromFilename (filename : String) : String :=
  let basename := pyReplace filename ".npz" ""
  let fromHyphens : Option String :=
    if pyContains basename "_PPSD_" then
      ((pySplit basename "_").reverse.find?
        (fun p => pyContains p "-" && decide (3 ≤ (pySplit p "-").length))).map
        (fun p => pyReplace p "-" ".")
    else none
  match fromHyphens with
  | some s => s
  | none =>
    if pyStartsWith basename "PPSD_" then
      match (pySplit (strDropChars basename 5) "_").head? with
      | some candidate =>
        if 2 ≤ pyCount candidate '.' then candidate else basename
      | none => basename
    else basename

/-- What reading the artifact's embedded metadata can observe: a read
failure, or the optional embedded fields. -/
inductive NpzEmbedded where
  | readFails
  | fields (idField networkField stationField locationField channelField :
      Option String)

/-- Identity resolution for one artifact (`_group_npz_files_by_seed_id`
lines 826-851): embedded `id` first, then embedded network/station fields
with defaults, then filename heuristics; a read failure falls back to the
filename heuristics. -/
def resolveSeedId (meta : NpzEmbedded) (basename : String) : String :=
  match meta with
  | .readFails => extractSeedIdFromFilename basename
  | .fields idF netF staF locF chaF =>
    match idF with
    | some i => i
    | none =>
      match netF, staF with
      | some net, some sta =>
        net ++ "." ++ sta ++ "." ++ locF.getD "" ++ "." ++ chaF.getD "XXX"
      | some _, none => extractSeedIdFromFilename basename
      | none, _ => extractSeedIdFromFilename basename

/-- C5: identity resolution tries, in order and stopping at the first
success, the embedded id field; the embedded network/station fields with
location defaulting to "" and channel to "XXX"; the filename heuristics
(under which `PPSD_NET.STA.LOC.CHA_20250101.npz` resolves to
`NET.STA.LOC.CHA`); and finally the extension-stripped filename itself.
An embedded id wins over any filename, a metadata read failure falls back
to the filename heuristics, and the final fallback keys the artifact by its
own stripped filename. -/
theorem c5_identity_resolution_chain :
    (∀ (basename i : String) (netF staF locF chaF : Option String),
      resolveSeedId (.fields (some i) netF staF locF chaF) basename = i) ∧
    (∀ (basename net sta : String) (locF chaF : Option String),
      resolveSeedId (.fields none (some net) (some sta) locF chaF) basename =
        net ++ "." ++ sta ++ "." ++ locF.getD "" ++ "." ++ chaF.getD "XXX") ∧
    (∀ basename : String,
      resolveSeedId .readFails basename = extractSeedIdFromFilename basename) ∧
    extractSeedIdFromFilename "PPSD_NET.STA.LOC.CHA_20250101.npz" =
      "NET.STA.LOC.CHA" ∧
    (∀ s : String,
      pyContains (pyReplace s ".npz" "") "_PPSD_" = false →
      pyStartsWith (pyReplace s ".npz" "") "PPSD_" = false →
      extractSeedIdFromFilename s = pyReplace s ".npz" "") := by
  refine ⟨?_, ?_, ?_, ?_, ?_⟩
  · intro basename i netF staF locF chaF
    rfl
  · intro basename net sta locF chaF
    rfl
  · intro basename
    rfl
  · decide
  · intro s h1 h2
    simp only [extractSeedIdFromFilename, h1, Bool.false_eq_true, if_false, h2]

/-- Witness for C5 at concrete inputs: a filename matching no heuristic is
keyed by its stripped name, and an embedded id beats a disagreeing
filename. -/
theorem c5_identity_resolution_chain_witness :
    extractSeedIdFromFilename "mystery_file.npz" = "mystery_file" ∧
    resolveSeedId (.fields (some "BJ.DAX.00.BHZ") none none none none)
      "PPSD_XX.YYY.10.ZZZ_20250101.npz" = "BJ.DAX.00.BHZ" := by
  constructor
  · exact (c5_identity_resolution_chain.2.2.2.2 "mystery_file.npz"
      (by decide) (by decide)).trans (by decide)
  · exact c5_identity_resolution_chain.1 "PPSD_XX.YYY.10.ZZZ_20250101.npz"
      "BJ.DAX.00.BHZ" none none none none

/-! ## Batch compute orchestrator (`calculate_ppsd`, lines 340-521)

The orchestrator raises for missing parameters, an unreadable inventory and
an empty file set; inside the batch loop, failures of a file read, of a
channel group and of a single trace are caught, logged, counted in the
`failed` counter and the loop continues.  A trace's fate inside
`_process_single_merged_trace_to_npz` is abstracted to a Boolean outcome. -/

/-- Python truthiness of an optional string parameter: `not x` is true for
an absent value and for the empty string. -/
def pythonFalsy (o : Option String) : Bool :=
  match o with
  | none => true
  | some s => s.data.isEmpty

/-- One discovered MiniSEED file: whether `read` succeeds on it, and the
(channel id, processing succeeds?) outcomes of its traces in file order. -/
structure MseedFile where
  readable : Bool
  traces : List (String × Bool)

/-- Configuration keys that `calculate_ppsd` requires. -/
structure ComputeConfig where
  mseedPattern : Option String
  inventoryPath : Option String

/-- External state of one compute batch: whether the inventory parses, the
discovered files, and which channel groups fail at group level. -/
structure ComputeWorld where
  inventoryReadable : Bool
  mseedFiles : List MseedFile
  channelGroupFails : String → Bool

/-- Structural failures that `calculate_ppsd` raises. -/
inductive ComputeError where
  | missingParams
  | inventoryReadFailure
  | noInputFiles
deriving DecidableEq

/-- Channel grouping of `calculate_ppsd` (lines 407-417): a dict keyed by
trace id, preserving first-appearance order, each value keeping file order. -/
def addToGroups (gs : List (String × List Bool)) (k : String) (v : Bool) :
    List (String × List Bool) :=
  match gs with
  | [] => [(k, [v])]
  | (k2, vs) :: rest =>
    if k2 = k then (k2, vs ++ [v]) :: rest else (k2, vs) :: addToGroups rest k v

/-- Grouping the traces of one file by channel id. -/
def groupTracesByChannel (ts : List (String × Bool)) :
    List (String × List Bool) :=
  ts.foldl (fun gs kv => addToGroups gs kv.1 kv.2) []

/-- Per-channel-group processing (lines 422-514): a group-level exception
counts one failure; otherwise each trace adds to the successful or failed
counter according to its own outcome. -/
def processChannelGroup (groupFails : Bool) (ts : List Bool)
    (acc : Nat × Nat) : Nat × Nat :=
  if groupFails then (acc.1, acc.2 + 1)
  else ts.foldl
    (fun a t => if t then (a.1 + 1, a.2) else (a.1, a.2 + 1)) acc

/-- Per-file processing (lines 399-519): an unreadable file counts one
failure; otherwise its channel groups are processed in order. -/
def processMseedFile (w : ComputeWorld) (fe : MseedFile) (acc : Nat × Nat) :
    Nat × Nat :=
  if fe.readable then
    (groupTracesByChannel fe.traces).foldl
      (fun a g => processChannelGroup (w.channelGroupFails g.1) g.2 a) acc
  else (acc.1, acc.2 + 1)

/-- The batch compute orchestrator `calculate_ppsd`. -/
def calculatePpsd (cfg : ComputeConfig) (w : ComputeWorld) :
    Except ComputeError (Nat × Nat) :=
  if pythonFalsy cfg.mseedPattern || pythonFalsy cfg.inventoryPath then
    .error .missingParams
  else if !w.inventoryReadable then .error .inventoryReadFailure
  else if w.mseedFiles.isEmpty then .error .noInputFiles
  else .ok (w.mseedFiles.foldl (fun acc fe => processMseedFile w fe acc) (0, 0))

/-- Successful-trace count contributed by one channel group. -/
def groupSuccesses (groupFails : Bool) (ts : List Bool) : Nat :=
  if groupFails then 0 else ts.count true

/-- Failure count contributed by one channel group. -/
def groupFailures (groupFails : Bool) (ts : List Bool) : Nat :=
  if groupFails then 1 else ts.count false

/-- Successful-trace count contributed by one file. -/
def fileSuccesses (w : ComputeWorld) (fe : MseedFile) : Nat :=
  if fe.readable then
    ((groupTracesByChannel fe.traces).map
      (fun g => groupSuccesses (w.channelGroupFails g.1) g.2)).sum
  else 0

/-- Failure count contributed by one file. -/
def fileFailures (w : ComputeWorld) (fe : MseedFile) : Nat :=
  if fe.readable then
    ((groupTracesByChannel fe.traces).map
      (fun g => groupFailures (w.channelGroupFails g.1) g.2)).sum
  else 1

theorem traceLoop_foldl (ts : List Bool) :
    ∀ (a b : Nat),
      ts.foldl (fun acc t => if t then (acc.1 + 1, acc.2) else (acc.1, acc.2 + 1))
        (a, b) = (a + ts.count true, b + ts.count false) := by
  induction ts with
  | nil => intro a b; simp
  | cons t ts ih =>
    intro a b
    cases t with
    | true =>
      simp only [List.foldl_cons, if_true]
      rw [ih (a + 1) b]
      simp [List.count_cons]
      omega
    | false =>
      simp only [List.foldl_cons, Bool.false_eq_true, if_false]
      rw [ih a (b + 1)]
      simp [List.count_cons]
      omega

theorem processChannelGroup_counts (groupFails : Bool) (ts : List Bool)
    (a b : Nat) :
    processChannelGroup groupFails ts (a, b) =
      (a + groupSuccesses groupFails ts, b + groupFailures groupFails ts) := by
  cases groupFails with
  | true => simp [processChannelGroup, groupSuccesses, groupFailures]
  | false =>
    simp only [processChannelGroup, groupSuccesses, groupFailures,
      Bool.false_eq_true, if_false]
    exact traceLoop_foldl ts a b

theorem groupLoop_foldl (w : ComputeWorld) :
    ∀ (gs : List (String × List Bool)) (a b : Nat),
      gs.foldl (fun acc g => processChannelGroup (w.channelGroupFails g.1) g.2 acc)
        (a, b) =
      (a + (gs.map (fun g => groupSuccesses (w.channelGroupFails g.1) g.2)).sum,
       b + (gs.map (fun g => groupFailures (w.channelGroupFails g.1) g.2)).sum) := by
  intro gs
  induction gs with
  | nil => intro a b; simp
  | cons g gs ih =>
    intro a b
    simp only [List.foldl_cons]
    rw [processChannelGroup_counts (w.channelGroupFails g.1) g.2 a b,
      ih (a + groupSuccesses (w.channelGroupFails g.1) g.2)
        (b + groupFailures (w.channelGroupFails g.1) g.2)]
    simp
    omega

theorem processMseedFile_counts (w : ComputeWorld) (fe : MseedFile)
    (a b : Nat) :
    processMseedFile w fe (a, b) =
      (a + fileSuccesses w fe, b + fileFailures w fe) := by
  cases hr : fe.readable with
  | true =>
    simp only [processMseedFile, fileSuccesses, fileFailures, hr, if_true]
    exact groupLoop_foldl w (groupTracesByChannel fe.traces) a b
  | false =>
    simp [processMseedFile, fileSuccesses, fileFailures, hr]

theorem fileLoop_foldl (w : ComputeWorld) :
    ∀ (fs : List MseedFile) (a b : Nat),
      fs.foldl (fun acc fe => processMseedFile w fe acc) (a, b) =
        (a + (fs.map (fileSuccesses w)).sum, b + (fs.map (fileFailures w)).sum) := by
  intro fs
  induction fs with
  | nil => intro a b; simp
  | cons fe fs ih =>
    intro a b
    simp only [List.foldl_cons]
    rw [processMseedFile_counts w fe a b,
      ih (a + fileSuccesses w fe) (b + fileFailures w fe)]
    simp
    omega

/-- C9: `calculate_ppsd` raises exactly for the structural failures — missing
waveform pattern or inventory path, an unreadable inventory, or zero input
files — and otherwise completes the whole loop, returning the aggregate
successful/failed counters in which each unreadable file, each failing
channel group and each failing trace contributes one failure and every
successfully processed trace one success. -/
theorem c9_structural_raises_and_per_item_counting (cfg : ComputeConfig)
    (w : ComputeWorld) :
    (pythonFalsy cfg.mseedPattern = true ∨ pythonFalsy cfg.inventoryPath = true →
      calculatePpsd cfg w = .error .missingParams) ∧
    (pythonFalsy cfg.mseedPattern = false → pythonFalsy cfg.inventoryPath = false →
      w.inventoryReadable = false →
      calculatePpsd cfg w = .error .inventoryReadFailure) ∧
    (pythonFalsy cfg.mseedPattern = false → pythonFalsy cfg.inventoryPath = false →
      w.inventoryReadable = true → w.mseedFiles = [] →
      calculatePpsd cfg w = .error .noInputFiles) ∧
    (pythonFalsy cfg.mseedPattern = false → pythonFalsy cfg.inventoryPath = false →
      w.inventoryReadable = true → w.mseedFiles ≠ [] →
      calculatePpsd cfg w =
        .ok ((w.mseedFiles.map (fileSuccesses w)).sum,
             (w.mseedFiles.map (fileFailures w)).sum)) := by
  refine ⟨?_, ?_, ?_, ?_⟩
  · intro h
    rcases h with h | h <;> simp [calculatePpsd, h]
  · intro h1 h2 h3
    simp [calculatePpsd, h1, h2, h3]
  · intro h1 h2 h3 h4
    simp [calculatePpsd, h1, h2, h3, h4]
  · intro h1 h2 h3 h4
    have hne : w.mseedFiles.isEmpty = false := by
      cases hm : w.mseedFiles with
      | nil => exact absurd hm h4
      | cons a as => rfl
    simp only [calculatePpsd, h1, h2, h3, hne, Bool.or_self, Bool.false_eq_true,
      if_false, Bool.not_true]
    rw [fileLoop_foldl w w.mseedFiles 0 0]
    simp

/-- Witness for C9 at a concrete batch: one unreadable file, one readable
file whose channel BJ.DAX.00.BHY fails at group level, and traces with one
failing outcome; the orchestrator returns counts rather than raising. -/
theorem c9_structural_raises_and_per_item_counting_witness :
    calculatePpsd ⟨some "data/*.mseed", some "inv.xml"⟩
      ⟨true,
       [⟨false, [("BJ.DAX.00.BHZ", true)]⟩,
        ⟨true, [("BJ.DAX.00.BHZ", true), ("BJ.DAX.00.BHY", true),
                ("BJ.DAX.00.BHZ", false), ("BJ.DAX.00.BHN", true)]⟩],
       fun cid => cid = "BJ.DAX.00.BHY"⟩ = .ok (2, 3) := by
  have h := (c9_structural_raises_and_per_item_counting
    ⟨some "data/*.mseed", some "inv.xml"⟩
    ⟨true,
     [⟨false, [("BJ.DAX.00.BHZ", true)]⟩,
      ⟨true, [("BJ.DAX.00.BHZ", true), ("BJ.DAX.00.BHY", true),
              ("BJ.DAX.00.BHZ", false), ("BJ.DAX.00.BHN", true)]⟩],
     fun cid => cid = "BJ.DAX.00.BHY"⟩).2.2.2
    (by decide) (by decide) rfl (by simp)
  rw [h]
  rfl

/-! ## Batch plot orchestrator prologue (`plot_ppsd`, lines 678-724)

In the source, the statement assigning `npz_files` (line 707) is indented
into the body of `if inventory_path and os.path.exists(inventory_path):`
(line 699), after the `try`/`except` around `read_inventory`.  It therefore
runs exactly when that branch is entered — whatever the outcome of
`read_inventory` — and otherwise `npz_files` is never assigned before the
`if not npz_files:` test at line 708 reads it. -/

/-- Configuration keys that `plot_ppsd` reads before artifact discovery. -/
structure PlotConfig where
  inputNpzDir : Option String
  inventoryPath : Option String
  npzMergeStrategy : Bool

/-- External state of one plot batch: which paths exist and which NPZ files
a directory glob would discover. -/
structure PlotWorld where
  pathExists : String → Bool
  npzFilesIn : String → List String

/-- Failures of the plot prologue: a `ValueError` raise, or the
unbound-local read of `npz_files`. -/
inductive PlotError where
  | valueError
  | unboundLocalNpzFiles
deriving DecidableEq

/-- How the batch proceeds after the prologue. -/
inductive PlotRun where
  | individual (files : List String)
  | merged (files : List String)
deriving DecidableEq

/-- The prologue of `plot_ppsd` up to the dispatch on `npz_merge_strategy`:
validate the NPZ input directory, enter the inventory branch only when an
inventory path is configured and exists (the artifact glob being inside that
branch), then test `npz_files`. -/
def plotPpsd (cfg : PlotConfig) (w : PlotWorld) : Except PlotError PlotRun :=
  match cfg.inputNpzDir with
  | none => .error .valueError
  | some d =>
    if d = "" ∨ w.pathExists d = false then .error .valueError
    else
      let invBranch : Bool :=
        match cfg.inventoryPath with
        | some p => !(p = "") && w.pathExists p
        | none => false
      let npzFilesVar : Option (List String) :=
        if invBranch then some (w.npzFilesIn d) else none
      match npzFilesVar with
      | none => .error .unboundLocalNpzFiles
      | some files =>
        if files.isEmpty then .error .valueError
        else .ok (if cfg.npzMergeStrategy then .merged files else .individual files)

/-- C10: whenever the plot configuration's inventory path is absent, empty,
or nonexistent on disk, `plot_ppsd` reaches the `if not npz_files` test with
the local variable unassigned and fails with the unbound-local error before
any artifact discovery, grouping or merging — even when the NPZ input
directory exists and contains artifacts. -/
theorem c10_unbound_npz_files_without_inventory (cfg : PlotConfig)
    (w : PlotWorld) (d : String) (hdir : cfg.inputNpzDir = some d)
    (hde : d ≠ "") (hex : w.pathExists d = true)
    (hinv : cfg.inventoryPath = none ∨
      (∀ p, cfg.inventoryPath = some p → p = "" ∨ w.pathExists p = false)) :
    plotPpsd cfg w = .error .unboundLocalNpzFiles := by
  have hcond : ¬ (d = "" ∨ w.pathExists d = false) := by
    intro h
    rcases h with h | h
    · exact hde h
    · rw [hex] at h
      exact Bool.noConfusion h
  have hbr : (match cfg.inventoryPath with
      | some p => !(p = "") && w.pathExists p
      | none => false) = false := by
    rcases hinv with h | h
    · rw [h]
    · cases hp : cfg.inventoryPath with
      | none => rfl
      | some p =>
        rcases h p hp with he | he
        · simp [he]
        · simp [he]
  simp only [plotPpsd, hdir]
  rw [if_neg hcond, hbr]
  rfl

/-- Witness for C10 at a concrete configuration with no inventory path and
an existing NPZ directory holding one artifact. -/
theorem c10_unbound_npz_files_without_inventory_witness :
    plotPpsd ⟨some "./npz", none, true⟩
      ⟨fun p => p = "./npz", fun _ => ["PPSD_a.npz"]⟩ =
      .error .unboundLocalNpzFiles :=
  c10_unbound_npz_files_without_inventory ⟨some "./npz", none, true⟩
    ⟨fun p => p = "./npz", fun _ => ["PPSD_a.npz"]⟩ "./npz" rfl (by decide)
    (by decide) (Or.inl rfl)

/-! ## Filename generation (`_generate_filename`, lines 262-338)

A caller-supplied pattern is filled by successive `str.replace` calls, one
per supported placeholder, in the insertion order of the replacement dict.
All time-derived values come from the data's own start/end timestamps; the
wall clock is used only when the data start time is absent, and the end
time falls back to the start time. -/

/-- The fields of a Python `datetime` that the replacement dict reads. -/
structure PyDatetime where
  year : Nat
  month : Nat
  day : Nat
  hour : Nat
  minute : Nat
  second : Nat
  yday : Nat
deriving DecidableEq

/-- The channel-identity dict handed to `_generate_filename`; absent keys
fall back to the defaults of `dict.get`. -/
structure ChannelMetadata where
  network : Option String
  station : Option String
  location : Option String
  channel : Option String
deriving DecidableEq

/-- Resolved network field (`metadata.get('network', 'XX')`). -/
def mdNetwork (m : ChannelMetadata) : String := m.network.getD "XX"

/-- Resolved station field (`metadata.get('station', 'XXXX')`). -/
def mdStation (m : ChannelMetadata) : String := m.station.getD "XXXX"

/-- Resolved location field (`metadata.get('location', '')`). -/
def mdLocation (m : ChannelMetadata) : String := m.location.getD ""

/-- Resolved channel field (`metadata.get('channel', 'XXX')`). -/
def mdChannel (m : ChannelMetadata) : String := m.channel.getD "XXX"

/-- Dotted SEED identity used by the default filenames. -/
def seedIdOfMetadata (m : ChannelMetadata) : String :=
  mdNetwork m ++ "." ++ mdStation m ++ "." ++ mdLocation m ++ "." ++ mdChannel m

/-- Python `dt.strftime('%Y%m%d%H%M')`. -/
def fmtDatetime (dt : PyDatetime) : String :=
  padNat 4 dt.year ++ padNat 2 dt.month ++ padNat 2 dt.day ++
    padNat 2 dt.hour ++ padNat 2 dt.minute

/-- The replacement dict of `_generate_filename` (lines 297-329) in its
insertion order: identity fields, start-time fields, end-time fields, and
the legacy aliases equal to the start-time fields. -/
def replacementValues (md : ChannelMetadata) (sdt edt : PyDatetime) :
    List (String × String) :=
  [("network", mdNetwork md), ("station", mdStation md),
   ("location", mdLocation md), ("channel", mdChannel md),
   ("start_datetime", fmtDatetime sdt), ("start_year", natStr sdt.year),
   ("start_month", padNat 2 sdt.month), ("start_day", padNat 2 sdt.day),
   ("start_hour", padNat 2 sdt.hour), ("start_minute", padNat 2 sdt.minute),
   ("start_second", padNat 2 sdt.second), ("start_julday", padNat 3 sdt.yday),
   ("end_datetime", fmtDatetime edt), ("end_year", natStr edt.year),
   ("end_month", padNat 2 edt.month), ("end_day", padNat 2 edt.day),
   ("end_hour", padNat 2 edt.hour), ("end_minute", padNat 2 edt.minute),
   ("end_second", padNat 2 edt.second), ("end_julday", padNat 3 edt.yday),
   ("datetime", fmtDatetime sdt), ("year", natStr sdt.year),
   ("month", padNat 2 sdt.month), ("day", padNat 2 sdt.day),
   ("hour", padNat 2 sdt.hour), ("minute", padNat 2 sdt.minute),
   ("second", padNat 2 sdt.second), ("julday", padNat 3 sdt.yday)]

/-- Literal opening brace. -/
def braceOpenStr : String := "\x7b"

/-- Literal closing brace. -/
def braceCloseStr : String := "\x7d"

/-- Python `f'{{{key}}}'`: the placeholder token for one key. -/
def braceKey (k : String) : String := braceOpenStr ++ k ++ braceCloseStr

theorem braceKey_data (k : String) :
    (braceKey k).data = '{' :: (k.data ++ ['}']) := rfl

theorem braceKey_data_ne_nil (k : String) : (braceKey k).data ≠ [] := by
  rw [braceKey_data]
  exact List.cons_ne_nil _ _

theorem braceKey_head (k : String) : (braceKey k).data.head? = some '{' := by
  rw [braceKey_data]
  rfl

/-- The replacement loop of `_generate_filename` (lines 334-336). -/
def applyReplacements (repls : List (String × String)) (s : String) : String :=
  repls.foldl (fun acc kv => pyReplace acc (braceKey kv.1) kv.2) s

/-- The full `_generate_filename`: default names for an empty pattern,
otherwise placeholder substitution with the data start time (wall clock
`now` only as fallback) and the data end time (start time as fallback). -/
def generateFilename (pattern : String) (md : ChannelMetadata)
    (plotType : Option String) (dataStart dataEnd : Option PyDatetime)
    (now : PyDatetime) : String :=
  if pattern = "" then
    match plotType with
    | some pt => pt ++ "_" ++ seedIdOfMetadata md ++ ".png"
    | none => "PPSD_" ++ seedIdOfMetadata md ++ ".npz"
  else
    let sdt := match dataStart with | some t => t | none => now
    let edt := match dataEnd with | some t => t | none => sdt
    applyReplacements
      (replacementValues md sdt edt ++
        (match plotType with | some pt => [("plot_type", pt)] | none => []))
      pattern

/-- The supported placeholder keys, in the dict's insertion order. -/
def c7Keys : List String :=
  ["network", "station", "location", "channel",
   "start_datetime", "start_year", "start_month", "start_day",
   "start_hour", "start_minute", "start_second", "start_julday",
   "end_datetime", "end_year", "end_month", "end_day",
   "end_hour", "end_minute", "end_second", "end_julday",
   "datetime", "year", "month", "day", "hour", "minute", "second", "julday"]

theorem braceFreeStr_empty : braceFreeStr "" :=
  fun c hc => absurd hc (List.not_mem_nil c)

theorem pyReplace_data_of_ne_empty (s old new : String) (h : old.data ≠ []) :
    (pyReplace s old new).data = pyReplaceL s.data old.data new.data := by
  unfold pyReplace
  rw [if_neg (by simpa [List.isEmpty_iff] using h)]

theorem fmtDatetime_braceFree (dt : PyDatetime) : braceFreeStr (fmtDatetime dt) :=
  braceFreeStr_append (braceFreeStr_append (braceFreeStr_append
    (braceFreeStr_append (padNat_braceFree 4 dt.year) (padNat_braceFree 2 dt.month))
    (padNat_braceFree 2 dt.day)) (padNat_braceFree 2 dt.hour))
    (padNat_braceFree 2 dt.minute)

theorem replacementValues_braceFree (md : ChannelMetadata) (sdt edt : PyDatetime)
    (h1 : braceFreeStr (mdNetwork md)) (h2 : braceFreeStr (mdStation md))
    (h3 : braceFreeStr (mdLocation md)) (h4 : braceFreeStr (mdChannel md)) :
    ∀ kv ∈ replacementValues md sdt edt, braceFreeStr kv.2 := by
  unfold replacementValues
  simp only [List.forall_mem_cons]
  exact ⟨h1, h2, h3, h4,
    fmtDatetime_braceFree sdt, natStr_braceFree sdt.year,
    padNat_braceFree 2 sdt.month, padNat_braceFree 2 sdt.day,
    padNat_braceFree 2 sdt.hour, padNat_braceFree 2 sdt.minute,
    padNat_braceFree 2 sdt.second, padNat_braceFree 3 sdt.yday,
    fmtDatetime_braceFree edt, natStr_braceFree edt.year,
    padNat_braceFree 2 edt.month, padNat_braceFree 2 edt.day,
    padNat_braceFree 2 edt.hour, padNat_braceFree 2 edt.minute,
    padNat_braceFree 2 edt.second, padNat_braceFree 3 edt.yday,
    fmtDatetime_braceFree sdt, natStr_braceFree sdt.year,
    padNat_braceFree 2 sdt.month, padNat_braceFree 2 sdt.day,
    padNat_braceFree 2 sdt.hour, padNat_braceFree 2 sdt.minute,
    padNat_braceFree 2 sdt.second, padNat_braceFree 3 sdt.yday,
    List.forall_mem_nil _⟩

theorem strData_append (s t : String) : (s ++ t).data = s.data ++ t.data :=
  rfl

instance (s : String) : Decidable (braceFreeStr s) :=
  inferInstanceAs (Decidable (∀ c ∈ s.data, c ≠ '{'))

/-- Token-level view of a filename pattern: literal text interleaved with
placeholder tokens.  `renderPattern` maps a token list to the concrete
pattern string, so quantifying over token lists quantifies over every
pattern whose brace tokens spell placeholders. -/
inductive PatToken where
  | lit (s : String)
  | hole (k : String)

/-- The pattern string denoted by a token list (a hole for key `k` renders
as the placeholder token for `k`). -/
def renderPattern : List PatToken → String
  | [] => ""
  | .lit s :: rest => s ++ renderPattern rest
  | .hole k :: rest => braceKey k ++ renderPattern rest

/-- Whether the token list contains at least one placeholder. -/
def hasHole : List PatToken → Bool
  | [] => false
  | .hole _ :: _ => true
  | .lit _ :: rest => hasHole rest

/-- Replacement of every hole for key `k` by the literal value `v` — the
effect of one `str.replace` pass on a rendered pattern. -/
def substHole (k v : String) : List PatToken → List PatToken
  | [] => []
  | .lit s :: rest => .lit s :: substHole k v rest
  | .hole k2 :: rest => (if k2 = k then .lit v else .hole k2) :: substHole k v rest

/-- First value bound to a key in a replacement list. -/
def lookupVal : List (String × String) → String → String
  | [], _ => ""
  | kv :: rest, k => if kv.1 = k then kv.2 else lookupVal rest k

/-- The fully substituted text of a token list: literal chunks kept, each
hole replaced by its key's value. -/
def renderValues (kvs : List (String × String)) : List PatToken → String
  | [] => ""
  | .lit s :: rest => s ++ renderValues kvs rest
  | .hole k :: rest => lookupVal kvs k ++ renderValues kvs rest

/-- Literal chunks contain no opening brace. -/
def tokLitFree : PatToken → Prop
  | .lit s => braceFreeStr s
  | .hole _ => True

instance : DecidablePred tokLitFree := fun t =>
  match t with
  | .lit s => inferInstanceAs (Decidable (braceFreeStr s))
  | .hole _ => inferInstanceAs (Decidable True)

/-- Hole keys are drawn from the given key list. -/
def tokKeyIn (keys : List String) : PatToken → Prop
  | .lit _ => True
  | .hole k => k ∈ keys

instance (keys : List String) : DecidablePred (tokKeyIn keys) := fun t =>
  match t with
  | .lit _ => inferInstanceAs (Decidable True)
  | .hole k => inferInstanceAs (Decidable (k ∈ keys))

/-- Hole keys contain neither brace. -/
def tokClosed : PatToken → Prop
  | .lit _ => True
  | .hole k => '{' ∉ k.data ∧ '}' ∉ k.data

theorem braceFreeL_closeBrace : braceFreeL ['}'] := by
  intro c hc
  have hc2 : c = '}' := by simpa using hc
  rw [hc2]
  decide

theorem closedKeyPrefixEq :
    ∀ (k k2 rest : List Char), '}' ∉ k → '}' ∉ k2 →
      (k ++ ['}']) <+: (k2 ++ '}' :: rest) → k = k2 := by
  intro k
  induction k with
  | nil =>
    intro k2 rest _ hk2 hp
    match k2 with
    | [] => rfl
    | c :: k2t =>
      exfalso
      have hc := (List.cons_prefix_cons.mp hp).1
      exact hk2 (by rw [← hc]; exact List.mem_cons_self _ _)
  | cons c kt ih =>
    intro k2 rest hk hk2 hp
    match k2 with
    | [] =>
      exfalso
      have hc := (List.cons_prefix_cons.mp hp).1
      exact hk (by rw [hc]; exact List.mem_cons_self _ _)
    | c2 :: k2t =>
      have hp2 := List.cons_prefix_cons.mp hp
      have ht : kt = k2t := ih k2t rest (fun h => hk (List.mem_cons_of_mem _ h))
        (fun h => hk2 (List.mem_cons_of_mem _ h)) hp2.2
      rw [hp2.1, ht]

theorem pyReplaceL_render_subst (k v : String)
    (hkO : '{' ∉ k.data) (hkC : '}' ∉ k.data) :
    ∀ (toks : List PatToken),
      (∀ t ∈ toks, tokLitFree t) → (∀ t ∈ toks, tokClosed t) →
      pyReplaceL (renderPattern toks).data (braceKey k).data v.data =
        (renderPattern (substHole k v toks)).data := by
  intro toks
  induction toks with
  | nil => intro _ _; rfl
  | cons t rest ih =>
    intro hlits hclosed
    have hlr : ∀ t2 ∈ rest, tokLitFree t2 := fun t2 h2 => hlits t2 (by simp [h2])
    have hcr : ∀ t2 ∈ rest, tokClosed t2 := fun t2 h2 => hclosed t2 (by simp [h2])
    match t with
    | .lit s =>
      have hs : braceFreeStr s := hlits (.lit s) (by simp)
      have hdata : (renderPattern (PatToken.lit s :: rest)).data =
          s.data ++ (renderPattern rest).data := rfl
      rw [hdata, pyReplaceL_append_free _ _ _ _ hs (braceKey_head k), ih hlr hcr]
      rfl
    | .hole k2 =>
      have hk2 : '{' ∉ k2.data ∧ '}' ∉ k2.data := hclosed (.hole k2) (by simp)
      obtain ⟨hk2O, hk2C⟩ := hk2
      by_cases he : k2 = k
      · subst he
        have hdata : (renderPattern (PatToken.hole k2 :: rest)).data =
            (braceKey k2).data ++ (renderPattern rest).data := rfl
        rw [hdata, pyReplaceL_head_match _ _ _ (braceKey_data_ne_nil k2), ih hlr hcr]
        have hsub : substHole k2 v (PatToken.hole k2 :: rest) =
            PatToken.lit v :: substHole k2 v rest := by
          simp [substHole]
        rw [hsub]
        rfl
      · have hdata : (renderPattern (PatToken.hole k2 :: rest)).data =
            '{' :: ((k2.data ++ ['}']) ++ (renderPattern rest).data) := rfl
        rw [hdata, pyReplaceL_cons]
        have hnp : ((braceKey k).data.isPrefixOf
            ('{' :: ((k2.data ++ ['}']) ++ (renderPattern rest).data))) = false := by
          cases hq : (braceKey k).data.isPrefixOf
              ('{' :: ((k2.data ++ ['}']) ++ (renderPattern rest).data)) with
          | false => rfl
          | true =>
            exfalso
            have hpre := List.isPrefixOf_iff_prefix.mp hq
            rw [braceKey_data] at hpre
            have hp2 := (List.cons_prefix_cons.mp hpre).2
            have hp3 : k.data ++ ['}'] <+:
                k2.data ++ '}' :: (renderPattern rest).data := by
              simpa [List.append_assoc] using hp2
            exact he (stringDataEq
              (closedKeyPrefixEq k.data k2.data _ hkC hk2C hp3).symm)
        rw [hnp]
        simp only [Bool.false_eq_true, if_false]
        have hre : (k2.data ++ ['}']) ++ (renderPattern rest).data =
            k2.data ++ ('}' :: (renderPattern rest).data) := by
          simp [List.append_assoc]
        rw [hre, pyReplaceL_append_free _ _ _ _
          (fun c hc hce => hk2O (hce ▸ hc)) (braceKey_head k)]
        have hcb : pyReplaceL ('}' :: (renderPattern rest).data)
            (braceKey k).data v.data =
            '}' :: pyReplaceL (renderPattern rest).data (braceKey k).data v.data := by
          have h5 := pyReplaceL_append_free (braceKey k).data v.data ['}']
            (renderPattern rest).data braceFreeL_closeBrace (braceKey_head k)
          simpa using h5
        rw [hcb, ih hlr hcr]
        have hrhs : (renderPattern (substHole k v (PatToken.hole k2 :: rest))).data =
            '{' :: ((k2.data ++ ['}']) ++
              (renderPattern (substHole k v rest)).data) := by
          have hsub : substHole k v (PatToken.hole k2 :: rest) =
              PatToken.hole k2 :: substHole k v rest := by
            simp [substHole, he]
          rw [hsub]
          rfl
        rw [hrhs]
        simp [List.append_assoc]

theorem substHole_litFree (k v : String) (hbv : braceFreeStr v) :
    ∀ toks : List PatToken, (∀ t ∈ toks, tokLitFree t) →
      ∀ t ∈ substHole k v toks, tokLitFree t := by
  intro toks
  induction toks with
  | nil => intro _ t ht; exact absurd ht (List.not_mem_nil t)
  | cons t0 rest ih =>
    intro h t ht
    match t0 with
    | .lit s =>
      simp only [substHole] at ht
      rcases List.mem_cons.mp ht with rfl | h2
      · exact h (.lit s) (by simp)
      · exact ih (fun t2 h3 => h t2 (by simp [h3])) t h2
    | .hole k2 =>
      simp only [substHole] at ht
      rcases List.mem_cons.mp ht with rfl | h2
      · by_cases he : k2 = k
        · rw [if_pos he]
          exact hbv
        · rw [if_neg he]
          trivial
      · exact ih (fun t2 h3 => h t2 (by simp [h3])) t h2

theorem substHole_keyIn (k v : String) (keys : List String) :
    ∀ toks : List PatToken, (∀ t ∈ toks, tokKeyIn (k :: keys) t) →
      ∀ t ∈ substHole k v toks, tokKeyIn keys t := by
  intro toks
  induction toks with
  | nil => intro _ t ht; exact absurd ht (List.not_mem_nil t)
  | cons t0 rest ih =>
    intro h t ht
    match t0 with
    | .lit s =>
      simp only [substHole] at ht
      rcases List.mem_cons.mp ht with rfl | h2
      · trivial
      · exact ih (fun t2 h3 => h t2 (by simp [h3])) t h2
    | .hole k2 =>
      simp only [substHole] at ht
      rcases List.mem_cons.mp ht with rfl | h2
      · by_cases he : k2 = k
        · rw [if_pos he]
          trivial
        · rw [if_neg he]
          have hmem : k2 ∈ k :: keys := h (.hole k2) (by simp)
          rcases List.mem_cons.mp hmem with h4 | h4
          · exact absurd h4 he
          · exact h4
      · exact ih (fun t2 h3 => h t2 (by simp [h3])) t h2

theorem renderValues_substHole (k v : String) (kvs : List (String × String)) :
    ∀ toks : List PatToken,
      renderValues kvs (substHole k v toks) = renderValues ((k, v) :: kvs) toks := by
  intro toks
  induction toks with
  | nil => rfl
  | cons t rest ih =>
    match t with
    | .lit s =>
      show s ++ renderValues kvs (substHole k v rest) =
        s ++ renderValues ((k, v) :: kvs) rest
      rw [ih]
    | .hole k2 =>
      by_cases he : k2 = k
      · show renderValues kvs
          ((if k2 = k then PatToken.lit v else PatToken.hole k2) :: substHole k v rest) =
          lookupVal ((k, v) :: kvs) k2 ++ renderValues ((k, v) :: kvs) rest
        rw [if_pos he]
        have hl : lookupVal ((k, v) :: kvs) k2 = v := by
          show (if k = k2 then v else lookupVal kvs k2) = v
          rw [if_pos he.symm]
        show v ++ renderValues kvs (substHole k v rest) = _
        rw [hl, ih]
      · show renderValues kvs
          ((if k2 = k then PatToken.lit v else PatToken.hole k2) :: substHole k v rest) =
          lookupVal ((k, v) :: kvs) k2 ++ renderValues ((k, v) :: kvs) rest
        rw [if_neg he]
        have hl : lookupVal ((k, v) :: kvs) k2 = lookupVal kvs k2 := by
          show (if k = k2 then v else lookupVal kvs k2) = _
          rw [if_neg (fun h => he h.symm)]
        show lookupVal kvs k2 ++ renderValues kvs (substHole k v rest) = _
        rw [hl, ih]

theorem renderValues_eq_render_of_nil_keys (kvs : List (String × String)) :
    ∀ toks : List PatToken, (∀ t ∈ toks, tokKeyIn ([] : List String) t) →
      renderValues kvs toks = renderPattern toks := by
  intro toks
  induction toks with
  | nil => intro _; rfl
  | cons t rest ih =>
    intro h
    match t with
    | .lit s =>
      show s ++ renderValues kvs rest = s ++ renderPattern rest
      rw [ih (fun t2 h2 => h t2 (by simp [h2]))]
    | .hole k =>
      exact absurd (h (.hole k) (by simp)) (List.not_mem_nil k)

theorem lookupVal_braceFree :
    ∀ (kvs : List (String × String)) (k : String),
      (∀ kv ∈ kvs, braceFreeStr kv.2) → braceFreeStr (lookupVal kvs k) := by
  intro kvs
  induction kvs with
  | nil => intro k _; exact braceFreeStr_empty
  | cons kv rest ih =>
    intro k hv
    show braceFreeStr (if kv.1 = k then kv.2 else lookupVal rest k)
    by_cases h : kv.1 = k
    · rw [if_pos h]
      exact hv kv (by simp)
    · rw [if_neg h]
      exact ih k (fun kv2 h2 => hv kv2 (by simp [h2]))

theorem renderValues_braceFree (kvs : List (String × String)) :
    ∀ toks : List PatToken, (∀ t ∈ toks, tokLitFree t) →
      (∀ kv ∈ kvs, braceFreeStr kv.2) →
      braceFreeStr (renderValues kvs toks) := by
  intro toks
  induction toks with
  | nil => intro _ _; exact braceFreeStr_empty
  | cons t rest ih =>
    intro hl hv
    match t with
    | .lit s =>
      exact braceFreeStr_append (hl (.lit s) (by simp))
        (ih (fun t2 h2 => hl t2 (by simp [h2])) hv)
    | .hole k =>
      exact braceFreeStr_append (lookupVal_braceFree kvs k hv)
        (ih (fun t2 h2 => hl t2 (by simp [h2])) hv)

theorem hasHole_render_data_ne :
    ∀ toks : List PatToken, hasHole toks = true → (renderPattern toks).data ≠ [] := by
  intro toks
  induction toks with
  | nil => intro h; exact Bool.noConfusion h
  | cons t rest ih =>
    intro h
    match t with
    | .lit s =>
      have h2 : hasHole rest = true := h
      intro hcontra
      have hc2 : s.data ++ (renderPattern rest).data = [] := hcontra
      rcases List.append_eq_nil.mp hc2 with ⟨_, hr⟩
      exact ih h2 hr
    | .hole k =>
      intro hcontra
      exact List.cons_ne_nil _ _ hcontra

theorem applyReplacements_render :
    ∀ (kvs : List (String × String)) (toks : List PatToken),
      (∀ t ∈ toks, tokLitFree t) →
      (∀ t ∈ toks, tokKeyIn (kvs.map Prod.fst) t) →
      (∀ kv ∈ kvs, braceFreeStr kv.2) →
      (∀ k2 ∈ kvs.map Prod.fst, '{' ∉ k2.data ∧ '}' ∉ k2.data) →
      applyReplacements kvs (renderPattern toks) = renderValues kvs toks := by
  intro kvs
  induction kvs with
  | nil =>
    intro toks _ hkeys _ _
    show renderPattern toks = renderValues [] toks
    exact (renderValues_eq_render_of_nil_keys [] toks hkeys).symm
  | cons kv kvs ih =>
    intro toks hlits hkeys hv hclosedKeys
    obtain ⟨k1, v1⟩ := kv
    have hk1 : '{' ∉ k1.data ∧ '}' ∉ k1.data := hclosedKeys k1 (by simp)
    have htokClosed : ∀ t ∈ toks, tokClosed t := by
      intro t ht
      match t with
      | .lit s => trivial
      | .hole k2 => exact hclosedKeys k2 (hkeys (.hole k2) ht)
    have hstep : pyReplace (renderPattern toks) (braceKey k1) v1 =
        renderPattern (substHole k1 v1 toks) := by
      apply stringDataEq
      rw [pyReplace_data_of_ne_empty _ _ _ (braceKey_data_ne_nil k1)]
      exact pyReplaceL_render_subst k1 v1 hk1.1 hk1.2 toks hlits htokClosed
    show applyReplacements ((k1, v1) :: kvs) (renderPattern toks) =
      renderValues ((k1, v1) :: kvs) toks
    unfold applyReplacements
    rw [List.foldl_cons]
    show List.foldl (fun acc kv2 => pyReplace acc (braceKey kv2.1) kv2.2)
      (pyReplace (renderPattern toks) (braceKey k1) v1) kvs =
      renderValues ((k1, v1) :: kvs) toks
    rw [hstep]
    have happ := ih (substHole k1 v1 toks)
      (substHole_litFree k1 v1 (hv (k1, v1) (by simp)) toks hlits)
      (substHole_keyIn k1 v1 (kvs.map Prod.fst) toks hkeys)
      (fun kv2 h2 => hv kv2 (List.mem_cons_of_mem _ h2))
      (fun k2 h2 => hclosedKeys k2 (List.mem_cons_of_mem _ h2))
    unfold applyReplacements at happ
    rw [happ]
    exact renderValues_substHole k1 v1 kvs toks

/-- C7: for every filename pattern assembled from brace-free literal text
and supported placeholders — any subset of the placeholders, in any order,
with any interleaved literal text, as long as at least one placeholder is
present — filename generation with a supplied identity and data start/end
times returns the pattern with every placeholder replaced by the value
drawn from the data's own timestamps: the result is exactly the
substituted text, which does not mention the wall clock and contains no
brace at all, hence no unresolved placeholder token; the wall clock is
substituted only when the data start time is absent (the end time then
falling back to the start time). -/
theorem c7_filename_placeholder_substitution
    (toks : List PatToken) (md : ChannelMetadata) (st et now : PyDatetime)
    (hhole : hasHole toks = true)
    (hlits : ∀ t ∈ toks, tokLitFree t)
    (hsup : ∀ t ∈ toks, tokKeyIn c7Keys t)
    (h1 : braceFreeStr (mdNetwork md)) (h2 : braceFreeStr (mdStation md))
    (h3 : braceFreeStr (mdLocation md)) (h4 : braceFreeStr (mdChannel md)) :
    generateFilename (renderPattern toks) md none (some st) (some et) now =
      renderValues (replacementValues md st et) toks ∧
    braceFreeStr
      (generateFilename (renderPattern toks) md none (some st) (some et) now) ∧
    generateFilename (renderPattern toks) md none none none now =
      renderValues (replacementValues md now now) toks := by
  have hne : ¬ renderPattern toks = "" := fun h =>
    hasHole_render_data_ne toks hhole (congrArg String.data h)
  have hmain : ∀ (sdt edt : PyDatetime),
      applyReplacements (replacementValues md sdt edt) (renderPattern toks) =
        renderValues (replacementValues md sdt edt) toks := by
    intro sdt edt
    apply applyReplacements_render
    · exact hlits
    · have hkeys : (replacementValues md sdt edt).map Prod.fst = c7Keys := rfl
      rw [hkeys]
      exact hsup
    · exact replacementValues_braceFree md sdt edt h1 h2 h3 h4
    · have hkeys : (replacementValues md sdt edt).map Prod.fst = c7Keys := rfl
      rw [hkeys]
      decide
  have e1 : generateFilename (renderPattern toks) md none (some st) (some et) now =
      applyReplacements (replacementValues md st et) (renderPattern toks) := by
    unfold generateFilename
    rw [if_neg hne]
    rfl
  have e3 : generateFilename (renderPattern toks) md none none none now =
      applyReplacements (replacementValues md now now) (renderPattern toks) := by
    unfold generateFilename
    rw [if_neg hne]
    rfl
  refine ⟨e1.trans (hmain st et), ?_, e3.trans (hmain now now)⟩
  rw [e1.trans (hmain st et)]
  exact renderValues_braceFree (replacementValues md st et) toks hlits
    (replacementValues_braceFree md st et h1 h2 h3 h4)

/-- Witness for C7 at a concrete pattern mixing literal text with a subset
of the placeholders taken out of dict order, and concrete data timestamps:
the rendered pattern is the expected placeholder string and the generated
name is its substitution from the data timestamps, not from the
(distant-future) wall clock. -/
theorem c7_filename_placeholder_substitution_witness :
    renderPattern
        [PatToken.lit "PPSD_", PatToken.hole "network", PatToken.lit ".",
         PatToken.hole "station", PatToken.lit "_", PatToken.hole "julday",
         PatToken.lit "-", PatToken.hole "start_year", PatToken.lit ".npz"] =
      "PPSD_{network}.{station}_{julday}-{start_year}.npz" ∧
    generateFilename
      (renderPattern
        [PatToken.lit "PPSD_", PatToken.hole "network", PatToken.lit ".",
         PatToken.hole "station", PatToken.lit "_", PatToken.hole "julday",
         PatToken.lit "-", PatToken.hole "start_year", PatToken.lit ".npz"])
      ⟨some "BJ", some "DAX", some "00", some "BHZ"⟩ none
      (some ⟨2025, 3, 24, 10, 5, 7, 83⟩) (some ⟨2025, 3, 25, 11, 6, 8, 84⟩)
      ⟨2030, 1, 1, 0, 0, 0, 1⟩ = "PPSD_BJ.DAX_083-2025.npz" :=
  ⟨by decide,
   ((c7_filename_placeholder_substitution
      [PatToken.lit "PPSD_", PatToken.hole "network", PatToken.lit ".",
       PatToken.hole "station", PatToken.lit "_", PatToken.hole "julday",
       PatToken.lit "-", PatToken.hole "start_year", PatToken.lit ".npz"]
      ⟨some "BJ", some "DAX", some "00", some "BHZ"⟩
      ⟨2025, 3, 24, 10, 5, 7, 83⟩ ⟨2025, 3, 25, 11, 6, 8, 84⟩
      ⟨2030, 1, 1, 0, 0, 0, 1⟩
      (by decide) (by decide) (by decide)
      (by decide) (by decide) (by decide) (by decide)).1).trans (by decide)⟩

/-! ## Default NPZ artifact naming (`_process_single_merged_trace_to_npz`,
lines 610-626)

When `output_npz_filename_pattern` is empty, the artifact name is built at
line 617 as `f"PPSD_{original_filename}.npz"` from the source file's stem
alone; the custom pattern path goes through `_generate_filename`. -/

/-- Default artifact name used when no pattern is configured (line 617). -/
def defaultNpzFilename (originalStem : String) : String :=
  "PPSD_" ++ originalStem ++ ".npz"

/-- NPZ filename choice of `_process_single_merged_trace_to_npz`
(lines 613-624). -/
def chooseNpzFilename (npzPat : String) (md : ChannelMetadata)
    (st et : PyDatetime) (originalStem : String) (now : PyDatetime) : String :=
  if npzPat = "" then defaultNpzFilename originalStem
  else generateFilename npzPat md none (some st) (some et) now

/-- C8 counterexample: with no pattern configured, two traces of different
channels from the same source file receive the same default artifact name,
and the name does not contain the station (nor any identity field) — the
default name does not embed the channel identity. -/
theorem c8_counterexample_default_name_lacks_identity :
    chooseNpzFilename "" ⟨some "BJ", some "DAX", some "00", some "BHZ"⟩
        ⟨2025, 3, 24, 0, 0, 0, 83⟩ ⟨2025, 3, 24, 1, 0, 0, 83⟩
        "GOB_20250324" ⟨2030, 1, 1, 0, 0, 0, 1⟩ =
      chooseNpzFilename "" ⟨some "BJ", some "DAX", some "00", some "BHN"⟩
        ⟨2025, 3, 24, 0, 0, 0, 83⟩ ⟨2025, 3, 24, 1, 0, 0, 83⟩
        "GOB_20250324" ⟨2030, 1, 1, 0, 0, 0, 1⟩ ∧
    (some "BHZ" : Option String) ≠ some "BHN" ∧
    pyContains (chooseNpzFilename "" ⟨some "BJ", some "DAX", some "00", some "BHZ"⟩
        ⟨2025, 3, 24, 0, 0, 0, 83⟩ ⟨2025, 3, 24, 1, 0, 0, 83⟩
        "GOB_20250324" ⟨2030, 1, 1, 0, 0, 0, 1⟩) "DAX" = false := by
  refine ⟨rfl, by decide, by decide⟩

/-- C8 amended: with no pattern configured, the default artifact name is
`PPSD_<source stem>.npz` — it embeds the source file's base name only, so
it is unique per source file (distinct stems give distinct names) but does
not embed the channel identity. -/
theorem c8_amended_default_name_embeds_source_stem_only :
    ∀ (originalStem : String) (md : ChannelMetadata) (st et now : PyDatetime),
      chooseNpzFilename "" md st et originalStem now =
        "PPSD_" ++ originalStem ++ ".npz" ∧
      (∀ stem2 : String, originalStem ≠ stem2 →
        defaultNpzFilename originalStem ≠ defaultNpzFilename stem2) := by
  intro stem md st et now
  constructor
  · rfl
  · intro stem2 hne heq
    apply hne
    have hd := congrArg String.data heq
    have hd2 : "PPSD_".data ++ (stem.data ++ ".npz".data) =
        "PPSD_".data ++ (stem2.data ++ ".npz".data) := by
      simpa [defaultNpzFilename, strData_append, List.append_assoc] using hd
    have hd3 := List.append_cancel_left hd2
    have hd4 := List.append_cancel_right hd3
    exact stringDataEq hd4

/-- Witness for C8 amended at a concrete stem and metadata. -/
theorem c8_amended_default_name_embeds_source_stem_only_witness :
    chooseNpzFilename "" ⟨some "BJ", some "DAX", some "00", some "BHZ"⟩
        ⟨2025, 3, 24, 0, 0, 0, 83⟩ ⟨2025, 3, 24, 1, 0, 0, 83⟩
        "GOB_20250324" ⟨2030, 1, 1, 0, 0, 0, 1⟩ = "PPSD_GOB_20250324.npz" ∧
    defaultNpzFilename "fileA" ≠ defaultNpzFilename "fileB" := by
  constructor
  · exact ((c8_amended_default_name_embeds_source_stem_only "GOB_20250324"
      ⟨some "BJ", some "DAX", some "00", some "BHZ"⟩
      ⟨2025, 3, 24, 0, 0, 0, 83⟩ ⟨2025, 3, 24, 1, 0, 0, 83⟩
      ⟨2030, 1, 1, 0, 0, 0, 1⟩).1).trans (by decide)
  · exact (c8_amended_default_name_embeds_source_stem_only "fileA"
      ⟨some "BJ", some "DAX", some "00", some "BHZ"⟩
      ⟨2025, 3, 24, 0, 0, 0, 83⟩ ⟨2025, 3, 24, 1, 0, 0, 83⟩
      ⟨2030, 1, 1, 0, 0, 0, 1⟩).2 "fileB" (by decide)
